import Mathlib

/-!
Shallow embedding of the HTTP server in `main.go` (root, greeting, and
translation-proxy handlers). Request and response bodies are modelled by a
JSON value type; a body that is not syntactically valid JSON is `none`.
Handlers are pure functions of the decoded inputs; the outbound call of the
translation proxy is an injected function from URL to an upstream result, and
the outcome records the URL of the outbound request when one was issued.
Logging (`fmt.Printf`) has no observable effect on any response and is left
out of the model.
-/

namespace HttpServer

/-- JSON values, the model of `encoding/json` payloads: objects keep their
fields in source order, and numbers are restricted to the integers that the
handlers consume (a fractional number would be a decode error for the `int`
field below, like every other mismatched type). -/
inductive Json where
  | null
  | bool (b : Bool)
  | num (n : Int)
  | str (s : String)
  | arr (elems : List Json)
  | obj (fields : List (String × Json))

/-- ASCII lower-casing of one character, for the case-insensitive field
matching of `encoding/json`. -/
def asciiLower (c : Char) : Char :=
  if 65 ≤ c.toNat ∧ c.toNat ≤ 90 then Char.ofNat (c.toNat + 32) else c

/-- Case-insensitive (ASCII fold) string equality: the model of the
`strings.EqualFold` matching `encoding/json` uses to pair an incoming object
key with a struct field name when no exact match exists (an exact match is a
fold match too, and no two field names of this program collide under
folding, so fold matching alone is faithful here). -/
def eqFold (a b : String) : Bool :=
  a.data.map asciiLower == b.data.map asciiLower

/-- `true` when no key of `fields` matches `name` under json field
matching. -/
def noKey (name : String) (fields : List (String × Json)) : Bool :=
  fields.all (fun kv => !(eqFold kv.1 name))

/-- `HelloRequest` from `main.go`: the JSON payload schema of the `/hello`
endpoint (`Name string`, `Age int`, `Hobby string`). `Age` is an unbounded
integer; the decoder below rejects values outside the `int64` range the way
`encoding/json` does, and the handler only compares and prints it. -/
structure HelloRequest where
  Name : String
  Age : Int
  Hobby : String
deriving Repr, DecidableEq

/-- `TranslateRequest`: the JSON payload schema of the `/translate` endpoint
(tags `text`, `target`, `source`). -/
structure TranslateRequest where
  Text : String
  Target : String
  Source : String
deriving Repr, DecidableEq

/-- Go json decoding of one string struct field: `null` leaves the current
value, a JSON string overwrites it, any other value is a type error. -/
def decodeStringField (v : Json) (cur : String) : Option String :=
  match v with
  | .null => some cur
  | .str s => some s
  | _ => none

/-- Go json decoding of one `int` struct field; integers outside the `int64`
range are a range error, as in `encoding/json`. -/
def decodeIntField (v : Json) (cur : Int) : Option Int :=
  match v with
  | .null => some cur
  | .num n => if -(2 ^ 63) ≤ n ∧ n < 2 ^ 63 then some n else none
  | _ => none

/-- Field-by-field decoding of a JSON object into `HelloRequest`, modelling
`encoding/json`: keys are matched case-insensitively, unknown keys are
ignored, later duplicates overwrite earlier ones. -/
def decodeHelloFields : List (String × Json) → HelloRequest → Option HelloRequest
  | [], acc => some acc
  | (k, v) :: rest, acc =>
    if eqFold k "Name" then
      match decodeStringField v acc.Name with
      | some s => decodeHelloFields rest { acc with Name := s }
      | none => none
    else if eqFold k "Age" then
      match decodeIntField v acc.Age with
      | some n => decodeHelloFields rest { acc with Age := n }
      | none => none
    else if eqFold k "Hobby" then
      match decodeStringField v acc.Hobby with
      | some s => decodeHelloFields rest { acc with Hobby := s }
      | none => none
    else decodeHelloFields rest acc

/-- `json.Decode` into `HelloRequest`: top-level `null` is a no-op on the
zero value, an object decodes field-wise starting from the zero value, any
other value is a type error. -/
def decodeHello (j : Json) : Option HelloRequest :=
  match j with
  | .null => some ⟨"", 0, ""⟩
  | .obj fields => decodeHelloFields fields ⟨"", 0, ""⟩
  | _ => none

/-- Decoding of the `/hello` request body: `none` is a body that is not
syntactically valid JSON, which `json.Decode` reports as an error. -/
def decodeHelloOpt : Option Json → Option HelloRequest
  | none => none
  | some j => decodeHello j

/-- Field-by-field decoding of a JSON object into `TranslateRequest`
(tags `text`, `target`, `source`), same `encoding/json` rules. -/
def decodeTranslateFields : List (String × Json) → TranslateRequest → Option TranslateRequest
  | [], acc => some acc
  | (k, v) :: rest, acc =>
    if eqFold k "text" then
      match decodeStringField v acc.Text with
      | some s => decodeTranslateFields rest { acc with Text := s }
      | none => none
    else if eqFold k "target" then
      match decodeStringField v acc.Target with
      | some s => decodeTranslateFields rest { acc with Target := s }
      | none => none
    else if eqFold k "source" then
      match decodeStringField v acc.Source with
      | some s => decodeTranslateFields rest { acc with Source := s }
      | none => none
    else decodeTranslateFields rest acc

/-- `json.Decode` into `TranslateRequest`. -/
def decodeTranslate (j : Json) : Option TranslateRequest :=
  match j with
  | .null => some ⟨"", "", ""⟩
  | .obj fields => decodeTranslateFields fields ⟨"", "", ""⟩
  | _ => none

/-- Decoding of the `/translate` request body (`none` = invalid JSON). -/
def decodeTranslateOpt : Option Json → Option TranslateRequest
  | none => none
  | some j => decodeTranslate j

/-- Decoding of the `translatedText` field of the anonymous inner struct of
`getTranslate`'s `apiResponse`. -/
def decodeInnerFields : List (String × Json) → String → Option String
  | [], acc => some acc
  | (k, v) :: rest, acc =>
    if eqFold k "translatedText" then
      match decodeStringField v acc with
      | some s => decodeInnerFields rest s
      | none => none
    else decodeInnerFields rest acc

/-- Decoding of the `responseData` field of `getTranslate`'s `apiResponse`:
`null` leaves the nested struct alone, an object decodes the inner struct,
any other value is a type error. -/
def decodeApiFields : List (String × Json) → String → Option String
  | [], acc => some acc
  | (k, v) :: rest, acc =>
    if eqFold k "responseData" then
      match v with
      | .null => decodeApiFields rest acc
      | .obj inner =>
        match decodeInnerFields inner acc with
        | some s => decodeApiFields rest s
        | none => none
      | _ => none
    else decodeApiFields rest acc

/-- `json.Decode` of the upstream MyMemory response into the anonymous
struct `{responseData: {translatedText: string}}` used by `getTranslate`;
the result is the decoded `translatedText` (zero value `""` when the fields
are absent). -/
def decodeApi (j : Json) : Option String :=
  match j with
  | .null => some ""
  | .obj fields => decodeApiFields fields ""
  | _ => none

/-- Decoding of the upstream response body (`none` = body not valid JSON,
including an empty body, which `json.Decode` reports as `io.EOF`). -/
def decodeApiOpt : Option Json → Option String
  | none => none
  | some j => decodeApi j

/-- The body a handler writes: plain text via `io.WriteString`/`http.Error`,
or a JSON value written through `json.NewEncoder(w).Encode` (the encoder
serialises the value and appends a newline; the model keeps the value
itself). -/
inductive Body where
  | text (s : String)
  | jsonVal (j : Json)

/-- What a handler sends back: status code, the `Content-Type` header it
explicitly set (`none` when it set none and net/http sniffs one), and the
body. -/
structure HttpResponse where
  status : Nat
  contentType : Option String
  body : Body

/-- `http.Error`: sets `Content-Type: text/plain; charset=utf-8`, the given
status code, and writes the message followed by a newline. -/
def httpError (msg : String) (code : Nat) : HttpResponse :=
  ⟨code, some "text/plain; charset=utf-8", Body.text (msg ++ "\n")⟩

/-- The parts of an incoming request that `getRoot` inspects: presence and
value of the `first` and `second` query parameters and the result of reading
the body (`Except.error` when `io.ReadAll` fails). -/
structure RootRequest where
  hasFirst : Bool
  first : String
  hasSecond : Bool
  second : String
  body : Except String String

/-- `getRoot`: logs the query parameters and the body (a read failure is
only logged too) and unconditionally writes the fixed text with the implicit
status 200. -/
def getRoot (_ : RootRequest) : HttpResponse :=
  ⟨200, none, Body.text "This is my website!\n"⟩

/-- `getHello`: decode the body into `HelloRequest` (400 on failure), reject
a non-positive `Age` with 400, otherwise answer 200 with the formatted
greeting. -/
def getHello (b : Option Json) : HttpResponse :=
  match decodeHelloOpt b with
  | none => httpError "Bad Request: invalid JSON" 400
  | some req =>
    if req.Age ≤ 0 then
      httpError "Bad Request: Age must be a positive number" 400
    else
      ⟨200, none, Body.text ("Hello, " ++ req.Name ++ "! You are " ++ toString req.Age ++
        " years old and enjoy " ++ req.Hobby ++ ".\n")⟩

/-- UTF-8 bytes of one character, as a Go string stores it. -/
def utf8Bytes (c : Char) : List Nat :=
  if c.toNat < 128 then [c.toNat]
  else if c.toNat < 2048 then [192 + c.toNat / 64, 128 + c.toNat % 64]
  else if c.toNat < 65536 then
    [224 + c.toNat / 4096, 128 + c.toNat / 64 % 64, 128 + c.toNat % 64]
  else
    [240 + c.toNat / 262144, 128 + c.toNat / 4096 % 64, 128 + c.toNat / 64 % 64,
      128 + c.toNat % 64]

/-- The byte sequence of a Go string. -/
def strBytes (s : String) : List Nat :=
  s.data.flatMap utf8Bytes

/-- A byte `url.QueryEscape` leaves unescaped: ASCII alphanumerics and
`-`, `_`, `.`, `~`. -/
def UnreservedByte (b : Nat) : Prop :=
  (97 ≤ b ∧ b ≤ 122) ∨ (65 ≤ b ∧ b ≤ 90) ∨ (48 ≤ b ∧ b ≤ 57) ∨
    b = 45 ∨ b = 95 ∨ b = 46 ∨ b = 126

instance : DecidablePred UnreservedByte := fun b => by
  unfold UnreservedByte; infer_instance

/-- Uppercase hex digit byte, Go's `"0123456789ABCDEF"[n]`. -/
def hexDigit (n : Nat) : Nat :=
  if n < 10 then 48 + n else 55 + n

/-- Escaping of one byte by `url.QueryEscape` (mode `encodeQueryComponent`):
a space becomes `+`, unreserved bytes pass through, everything else becomes
`%` with two uppercase hex digits. -/
def escapeByte (b : Nat) : List Nat :=
  if b = 32 then [43]
  else if UnreservedByte b then [b]
  else [37, hexDigit (b / 16), hexDigit (b % 16)]

/-- The escaped byte sequence produced by `url.QueryEscape`. -/
def queryEscapeBytes (s : String) : List Nat :=
  (strBytes s).flatMap escapeByte

/-- `url.QueryEscape`; every escaped byte is ASCII, so reading the bytes
back as characters is exact. -/
def queryEscape (s : String) : String :=
  String.mk ((queryEscapeBytes s).map Char.ofNat)

/-- The upstream URL `getTranslate` builds with `fmt.Sprintf`. -/
def translateURL (req : TranslateRequest) : String :=
  "https://api.mymemory.translated.net/get?q=" ++ queryEscape req.Text ++
    "&langpair=" ++ req.Source ++ "|" ++ req.Target

/-- Outcome of the outbound `http.Get`: a transport failure, or a response
with its numeric status code, status line text (Go's `resp.Status`, e.g.
`"503 Service Unavailable"`) and a body that may or may not parse as
JSON. -/
inductive UpstreamResult where
  | networkError
  | response (status : Nat) (statusText : String) (body : Option Json)

/-- One `getTranslate` invocation: the URL of the outbound GET when one was
issued, and the HTTP response written to the client. -/
structure TranslateOutcome where
  request : Option String
  response : HttpResponse

/-- `getTranslate`: decode and validate the body (400, no outbound call, on
failure), build the upstream URL, issue the GET through `up`, map a network
failure or a non-200 upstream status or an unparseable upstream body to 500,
and otherwise reply 200 with JSON `{"translatedText": t}`. -/
def getTranslate (b : Option Json) (up : String → UpstreamResult) : TranslateOutcome :=
  match decodeTranslateOpt b with
  | none => ⟨none, httpError "Bad Request: invalid JSON" 400⟩
  | some req =>
    if req.Text = "" ∨ req.Source = "" ∨ req.Target = "" then
      ⟨none, httpError "Bad Request: missing required fields" 400⟩
    else
      match up (translateURL req) with
      | .networkError =>
        ⟨some (translateURL req), httpError "Internal Server Error: failed to make request" 500⟩
      | .response status statusText respBody =>
        if status ≠ 200 then
          ⟨some (translateURL req), httpError ("External API error: " ++ statusText) 500⟩
        else
          match decodeApiOpt respBody with
          | none =>
            ⟨some (translateURL req),
              httpError "Internal Server Error: failed to parse response" 500⟩
          | some t =>
            ⟨some (translateURL req), ⟨200, some "application/json",
              Body.jsonVal (Json.obj [("translatedText", Json.str t)])⟩⟩

/-- A byte that is safe inside a URL query component: unreserved, the `+`
that encodes a space, or the `%` opening a hex escape. No such byte is a
query-string delimiter (`&`, `=`, `?`, `#`), a space, or the `|` separating
the language pair. -/
def SafeQueryByte (b : Nat) : Prop :=
  UnreservedByte b ∨ b = 43 ∨ b = 37

instance : DecidablePred SafeQueryByte := fun b => by
  unfold SafeQueryByte; infer_instance

/-- `true` when the JSON object `fields` omits the translation result: every
key matching `responseData` (there may be none at all) maps to `null` or to
an object with no key matching `translatedText`. -/
def responseDataAbsent (fields : List (String × Json)) : Bool :=
  fields.all (fun kv => !(eqFold kv.1 "responseData") ||
    (match kv.2 with
     | Json.null => true
     | Json.obj inner => noKey "translatedText" inner
     | _ => false))

/-! ## Supporting lemmas -/

theorem char_toNat_lt_unicode (c : Char) : c.toNat < 1114112 := by
  have h := c.valid
  unfold UInt32.isValidChar Nat.isValidChar at h
  show c.val.toNat < 1114112
  omega

theorem utf8Bytes_lt_256 (c : Char) : ∀ b ∈ utf8Bytes c, b < 256 := by
  have hc := char_toNat_lt_unicode c
  intro b hb
  unfold utf8Bytes at hb
  split at hb
  · simp only [List.mem_singleton] at hb; omega
  · split at hb
    · simp only [List.mem_cons, List.not_mem_nil, or_false] at hb; omega
    · split at hb <;>
        (simp only [List.mem_cons, List.not_mem_nil, or_false] at hb; omega)

theorem hexDigit_unreserved (n : Nat) (h : n < 16) : UnreservedByte (hexDigit n) := by
  unfold hexDigit UnreservedByte
  split <;> omega

theorem escapeByte_safe (b x : Nat) (hb : b < 256) (hx : x ∈ escapeByte b) :
    SafeQueryByte x := by
  unfold escapeByte at hx
  split at hx
  · simp only [List.mem_singleton] at hx
    exact Or.inr (Or.inl hx)
  · split at hx
    · simp only [List.mem_singleton] at hx
      subst hx
      left; assumption
    · simp only [List.mem_cons, List.not_mem_nil, or_false] at hx
      rcases hx with hx | hx | hx
      · exact Or.inr (Or.inr hx)
      · exact Or.inl (hx ▸ hexDigit_unreserved (b / 16) (by omega))
      · exact Or.inl (hx ▸ hexDigit_unreserved (b % 16) (by omega))

theorem queryEscapeBytes_safe (s : String) : ∀ x ∈ queryEscapeBytes s, SafeQueryByte x := by
  intro x hx
  unfold queryEscapeBytes at hx
  rw [List.mem_flatMap] at hx
  obtain ⟨b, hb, hxb⟩ := hx
  have hb256 : b < 256 := by
    unfold strBytes at hb
    rw [List.mem_flatMap] at hb
    obtain ⟨c, _, hbc⟩ := hb
    exact utf8Bytes_lt_256 c b hbc
  exact escapeByte_safe b x hb256 hxb

/-! ## Claims -/

/-- C8: for every incoming request — any method, query parameters, body,
empty body, or failed body read — `getRoot` responds HTTP 200 with body
exactly `"This is my website!\n"`; no error condition changes the
response. -/
theorem getRoot_always_ok (r : RootRequest) :
    getRoot r = ⟨200, none, Body.text "This is my website!\n"⟩ :=
  rfl

/-- C4: every request body decoding into the greeting schema with a positive
`Age` gets HTTP 200 with exactly the formatted greeting text. -/
theorem getHello_success (b : Option Json) (req : HelloRequest)
    (hd : decodeHelloOpt b = some req) (ha : 0 < req.Age) :
    getHello b = ⟨200, none, Body.text ("Hello, " ++ req.Name ++ "! You are " ++
      toString req.Age ++ " years old and enjoy " ++ req.Hobby ++ ".\n")⟩ := by
  simp only [getHello, hd]
  rw [if_neg (by omega)]

/-- Witness for C4 at the payload `{"Name":"Ann","Age":30,"Hobby":"chess"}`. -/
theorem getHello_success_witness :
    getHello (some (Json.obj [("Name", Json.str "Ann"), ("Age", Json.num 30),
      ("Hobby", Json.str "chess")])) =
      ⟨200, none, Body.text "Hello, Ann! You are 30 years old and enjoy chess.\n"⟩ :=
  getHello_success _ ⟨"Ann", 30, "chess"⟩ rfl (by decide)

/-- C5: `getHello` answers 400 exactly when the body fails to decode into
the greeting schema or the decoded `Age` is non-positive, and in every other
case it answers 200. -/
theorem getHello_status_cases (b : Option Json) :
    ((getHello b).status = 400 ↔
      decodeHelloOpt b = none ∨ ∃ r, decodeHelloOpt b = some r ∧ r.Age ≤ 0) ∧
    ((getHello b).status = 400 ∨ (getHello b).status = 200) := by
  cases hd : decodeHelloOpt b with
  | none => simp [getHello, hd, httpError]
  | some r =>
    by_cases ha : r.Age ≤ 0
    · have hstat : (getHello b).status = 400 := by
        simp [getHello, hd, if_pos ha, httpError]
      exact ⟨⟨fun _ => Or.inr ⟨r, rfl, ha⟩, fun _ => hstat⟩, Or.inl hstat⟩
    · have hstat : (getHello b).status = 200 := by
        simp [getHello, hd, if_neg ha, httpError]
      rw [hstat]
      constructor
      · constructor
        · intro h; exact absurd h (by omega)
        · rintro (h | ⟨r', hr', hr2⟩)
          · exact absurd h (by simp)
          · injection hr' with hr'
            subst hr'
            exact absurd hr2 ha
      · exact Or.inr rfl

/-- Witness for C5: a body that is not valid JSON gets status 400. -/
theorem getHello_status_cases_witness : (getHello none).status = 400 :=
  (getHello_status_cases none).1.mpr (Or.inl rfl)

/-- C1: when the request body decodes into the translation schema with all
three fields non-empty and the upstream answers the constructed URL with
HTTP 200 and a body decoding to translated text `t`, `getTranslate` responds
200 with `Content-Type: application/json` and JSON body
`{"translatedText": t}`. -/
theorem getTranslate_success (b : Option Json) (up : String → UpstreamResult)
    (req : TranslateRequest) (st t : String) (rb : Option Json)
    (hd : decodeTranslateOpt b = some req)
    (h1 : req.Text ≠ "") (h2 : req.Source ≠ "") (h3 : req.Target ≠ "")
    (hu : up (translateURL req) = UpstreamResult.response 200 st rb)
    (ht : decodeApiOpt rb = some t) :
    (getTranslate b up).response =
      ⟨200, some "application/json",
        Body.jsonVal (Json.obj [("translatedText", Json.str t)])⟩ := by
  have hne : ¬(req.Text = "" ∨ req.Source = "" ∨ req.Target = "") := by tauto
  simp [getTranslate, hd, hne, hu, ht]

/-- Witness for C1: payload `{"text":"Hello","source":"en","target":"es"}`
with a stubbed upstream returning
`{"responseData":{"translatedText":"Hola"}}` yields `{"translatedText":"Hola"}`. -/
theorem getTranslate_success_witness :
    (getTranslate (some (Json.obj [("text", Json.str "Hello"), ("source", Json.str "en"),
        ("target", Json.str "es")]))
      (fun _ => UpstreamResult.response 200 "200 OK"
        (some (Json.obj [("responseData",
          Json.obj [("translatedText", Json.str "Hola")])])))).response =
      ⟨200, some "application/json",
        Body.jsonVal (Json.obj [("translatedText", Json.str "Hola")])⟩ :=
  getTranslate_success _ _ ⟨"Hello", "es", "en"⟩ "200 OK" "Hola" _ rfl
    (by decide) (by decide) (by decide) rfl rfl

/-- C2: for every validated translation request the outbound URL is exactly
the provider base URL followed by `/get?q=`, the query-escaped text,
`&langpair=`, and the source and target inserted verbatim around `|`; and
every byte of the escaped text is safe for a query component (unreserved,
`+`, `%`, or a hex digit). -/
theorem getTranslate_url (b : Option Json) (up : String → UpstreamResult)
    (req : TranslateRequest)
    (hd : decodeTranslateOpt b = some req)
    (h1 : req.Text ≠ "") (h2 : req.Source ≠ "") (h3 : req.Target ≠ "") :
    (getTranslate b up).request =
      some ("https://api.mymemory.translated.net/get?q=" ++ queryEscape req.Text ++
        "&langpair=" ++ req.Source ++ "|" ++ req.Target) ∧
    ∀ x ∈ queryEscapeBytes req.Text, SafeQueryByte x := by
  have hne : ¬(req.Text = "" ∨ req.Source = "" ∨ req.Target = "") := by tauto
  refine ⟨?_, queryEscapeBytes_safe req.Text⟩
  have hreq : (getTranslate b up).request = some (translateURL req) := by
    cases hu : up (translateURL req) with
    | networkError => simp [getTranslate, hd, hne, hu]
    | response s st rb =>
      by_cases hs : s = 200
      · subst hs
        cases hrb : decodeApiOpt rb with
        | none => simp [getTranslate, hd, hne, hu, hrb]
        | some t => simp [getTranslate, hd, hne, hu, hrb]
      · simp [getTranslate, hd, hne, hu, hs]
  rw [hreq, translateURL]

/-- Witness for C2: the text `"Hello, world!"` is escaped to
`Hello%2C+world%21` inside the constructed URL. -/
theorem getTranslate_url_witness :
    (getTranslate (some (Json.obj [("text", Json.str "Hello, world!"),
        ("source", Json.str "en"), ("target", Json.str "es")]))
      (fun _ => UpstreamResult.networkError)).request =
      some "https://api.mymemory.translated.net/get?q=Hello%2C+world%21&langpair=en|es" :=
  (getTranslate_url (some (Json.obj [("text", Json.str "Hello, world!"),
      ("source", Json.str "en"), ("target", Json.str "es")]))
    (fun _ => UpstreamResult.networkError) ⟨"Hello, world!", "es", "en"⟩ rfl
    (by decide) (by decide) (by decide)).1

/-- C3: when the upstream answers HTTP 200 but its body does not decode as
the nested shape `{responseData: {translatedText: string}}` (not valid JSON,
or a type mismatch), `getTranslate` responds HTTP 500. -/
theorem getTranslate_unparseable_upstream (b : Option Json) (up : String → UpstreamResult)
    (req : TranslateRequest) (st : String) (rb : Option Json)
    (hd : decodeTranslateOpt b = some req)
    (h1 : req.Text ≠ "") (h2 : req.Source ≠ "") (h3 : req.Target ≠ "")
    (hu : up (translateURL req) = UpstreamResult.response 200 st rb)
    (hp : decodeApiOpt rb = none) :
    (getTranslate b up).response =
      httpError "Internal Server Error: failed to parse response" 500 := by
  have hne : ¬(req.Text = "" ∨ req.Source = "" ∨ req.Target = "") := by tauto
  simp [getTranslate, hd, hne, hu, hp]

/-- Witness for C3: a stubbed upstream returning malformed JSON gives
HTTP 500. -/
theorem getTranslate_unparseable_upstream_witness :
    (getTranslate (some (Json.obj [("text", Json.str "Hi"), ("source", Json.str "en"),
        ("target", Json.str "es")]))
      (fun _ => UpstreamResult.response 200 "200 OK" none)).response =
      httpError "Internal Server Error: failed to parse response" 500 :=
  getTranslate_unparseable_upstream _ _ ⟨"Hi", "es", "en"⟩ "200 OK" none rfl
    (by decide) (by decide) (by decide) rfl rfl

/-- C6: a request body that is not valid JSON, or that decodes with any of
text, source, target empty, gets HTTP 400 and no outbound request is
issued. -/
theorem getTranslate_invalid_request (b : Option Json) (up : String → UpstreamResult)
    (h : decodeTranslateOpt b = none ∨
      ∃ req, decodeTranslateOpt b = some req ∧
        (req.Text = "" ∨ req.Source = "" ∨ req.Target = "")) :
    (getTranslate b up).request = none ∧ (getTranslate b up).response.status = 400 := by
  rcases h with h | ⟨req, hd, he⟩
  · simp [getTranslate, h, httpError]
  · simp [getTranslate, hd, if_pos he, httpError]

/-- Witness for C6: an invalid-JSON body gets 400 and no outbound call. -/
theorem getTranslate_invalid_request_witness :
    (getTranslate none (fun _ => UpstreamResult.networkError)).request = none ∧
    (getTranslate none (fun _ => UpstreamResult.networkError)).response.status = 400 :=
  getTranslate_invalid_request none _ (Or.inl rfl)

/-- C7: for a validated translation request, a network failure of the
outbound GET yields HTTP 500, and a non-200 upstream status yields HTTP 500
with the upstream status text inside the error body. -/
theorem getTranslate_upstream_error (b : Option Json) (up : String → UpstreamResult)
    (req : TranslateRequest) (s : Nat) (st : String) (rb : Option Json)
    (hd : decodeTranslateOpt b = some req)
    (h1 : req.Text ≠ "") (h2 : req.Source ≠ "") (h3 : req.Target ≠ "") :
    (up (translateURL req) = UpstreamResult.networkError →
      (getTranslate b up).response =
        httpError "Internal Server Error: failed to make request" 500) ∧
    (up (translateURL req) = UpstreamResult.response s st rb → s ≠ 200 →
      (getTranslate b up).response = httpError ("External API error: " ++ st) 500) := by
  have hne : ¬(req.Text = "" ∨ req.Source = "" ∨ req.Target = "") := by tauto
  constructor
  · intro hu
    simp [getTranslate, hd, hne, hu]
  · intro hu hs
    simp [getTranslate, hd, hne, hu, hs]

/-- Witness for C7: a stubbed upstream answering HTTP 503 yields HTTP 500
with the upstream status text in the body. -/
theorem getTranslate_upstream_error_witness :
    (getTranslate (some (Json.obj [("text", Json.str "Hi"), ("source", Json.str "en"),
        ("target", Json.str "es")]))
      (fun _ => UpstreamResult.response 503 "503 Service Unavailable" none)).response =
      httpError "External API error: 503 Service Unavailable" 500 :=
  (getTranslate_upstream_error (some (Json.obj [("text", Json.str "Hi"),
      ("source", Json.str "en"), ("target", Json.str "es")]))
    (fun _ => UpstreamResult.response 503 "503 Service Unavailable" none)
    ⟨"Hi", "es", "en"⟩ 503 "503 Service Unavailable" none rfl
    (by decide) (by decide) (by decide)).2 rfl (by decide)

theorem noKey_cons (name k : String) (v : Json) (rest : List (String × Json)) :
    noKey name ((k, v) :: rest) = true ↔
      eqFold k name = false ∧ noKey name rest = true := by
  simp [noKey]

theorem decodeInnerFields_noKey (inner : List (String × Json)) (acc : String)
    (h : noKey "translatedText" inner = true) :
    decodeInnerFields inner acc = some acc := by
  induction inner generalizing acc with
  | nil => rfl
  | cons kv rest ih =>
    obtain ⟨k, v⟩ := kv
    obtain ⟨h1, h2⟩ := (noKey_cons _ _ _ _).mp h
    unfold decodeInnerFields
    rw [if_neg (by simp [h1])]
    exact ih acc h2

theorem decodeApiFields_absent (fields : List (String × Json)) :
    ∀ acc, responseDataAbsent fields = true → decodeApiFields fields acc = some acc := by
  induction fields with
  | nil => intro acc _; rfl
  | cons kv rest ih =>
    intro acc h
    obtain ⟨k, v⟩ := kv
    simp only [responseDataAbsent, List.all_cons, Bool.and_eq_true, Bool.or_eq_true,
      Bool.not_eq_true'] at h
    obtain ⟨h1, h2⟩ := h
    have hrest : responseDataAbsent rest = true := by
      simp [responseDataAbsent, h2]
    unfold decodeApiFields
    by_cases hk : eqFold k "responseData" = true
    · rw [if_pos hk]
      rcases h1 with h1 | h1
      · rw [hk] at h1; cases h1
      · cases v with
        | null => exact ih acc hrest
        | obj inner =>
          dsimp only at h1 ⊢
          rw [decodeInnerFields_noKey inner acc h1]
          exact ih acc hrest
        | bool bb => cases h1
        | num n => cases h1
        | str s => cases h1
        | arr elems => cases h1
    · rw [if_neg hk]
      exact ih acc hrest

theorem decodeHelloFields_absent (fields : List (String × Json)) :
    ∀ acc r, decodeHelloFields fields acc = some r →
      ((noKey "Name" fields = true → r.Name = acc.Name) ∧
       (noKey "Age" fields = true → r.Age = acc.Age) ∧
       (noKey "Hobby" fields = true → r.Hobby = acc.Hobby)) := by
  induction fields with
  | nil =>
    intro acc r h
    injection h with h
    subst h
    exact ⟨fun _ => rfl, fun _ => rfl, fun _ => rfl⟩
  | cons kv rest ih =>
    obtain ⟨k, v⟩ := kv
    intro acc r h
    unfold decodeHelloFields at h
    by_cases hN : eqFold k "Name" = true
    · rw [if_pos hN] at h
      cases hs : decodeStringField v acc.Name with
      | none => rw [hs] at h; cases h
      | some s =>
        rw [hs] at h
        have ht := ih _ _ h
        refine ⟨fun hkey => ?_, fun hkey => ?_, fun hkey => ?_⟩
        · simp [((noKey_cons _ _ _ _).mp hkey).1] at hN
        · exact ht.2.1 ((noKey_cons _ _ _ _).mp hkey).2
        · exact ht.2.2 ((noKey_cons _ _ _ _).mp hkey).2
    · rw [if_neg hN] at h
      by_cases hA : eqFold k "Age" = true
      · rw [if_pos hA] at h
        cases hs : decodeIntField v acc.Age with
        | none => rw [hs] at h; cases h
        | some n =>
          rw [hs] at h
          have ht := ih _ _ h
          refine ⟨fun hkey => ?_, fun hkey => ?_, fun hkey => ?_⟩
          · exact ht.1 ((noKey_cons _ _ _ _).mp hkey).2
          · simp [((noKey_cons _ _ _ _).mp hkey).1] at hA
          · exact ht.2.2 ((noKey_cons _ _ _ _).mp hkey).2
      · rw [if_neg hA] at h
        by_cases hH : eqFold k "Hobby" = true
        · rw [if_pos hH] at h
          cases hs : decodeStringField v acc.Hobby with
          | none => rw [hs] at h; cases h
          | some s =>
            rw [hs] at h
            have ht := ih _ _ h
            refine ⟨fun hkey => ?_, fun hkey => ?_, fun hkey => ?_⟩
            · exact ht.1 ((noKey_cons _ _ _ _).mp hkey).2
            · exact ht.2.1 ((noKey_cons _ _ _ _).mp hkey).2
            · simp [((noKey_cons _ _ _ _).mp hkey).1] at hH
        · rw [if_neg hH] at h
          have ht := ih _ _ h
          exact ⟨fun hkey => ht.1 ((noKey_cons _ _ _ _).mp hkey).2,
            fun hkey => ht.2.1 ((noKey_cons _ _ _ _).mp hkey).2,
            fun hkey => ht.2.2 ((noKey_cons _ _ _ _).mp hkey).2⟩

/-- C9: an upstream HTTP 200 whose body is valid JSON but omits the
`responseData` object or its `translatedText` field decodes to the zero
value, so `getTranslate` responds HTTP 200 with body
`{"translatedText":""}` rather than an error. -/
theorem getTranslate_absent_translation (b : Option Json) (up : String → UpstreamResult)
    (req : TranslateRequest) (st : String) (fields : List (String × Json))
    (hd : decodeTranslateOpt b = some req)
    (h1 : req.Text ≠ "") (h2 : req.Source ≠ "") (h3 : req.Target ≠ "")
    (hu : up (translateURL req) = UpstreamResult.response 200 st (some (Json.obj fields)))
    (hmiss : responseDataAbsent fields = true) :
    (getTranslate b up).response =
      ⟨200, some "application/json",
        Body.jsonVal (Json.obj [("translatedText", Json.str "")])⟩ := by
  have ht : decodeApiOpt (some (Json.obj fields)) = some "" := by
    simp [decodeApiOpt, decodeApi, decodeApiFields_absent fields "" hmiss]
  have hne : ¬(req.Text = "" ∨ req.Source = "" ∨ req.Target = "") := by tauto
  simp [getTranslate, hd, hne, hu, ht]

/-- Witness for C9: the upstream body `{}` yields `{"translatedText":""}`
with HTTP 200. -/
theorem getTranslate_absent_translation_witness :
    (getTranslate (some (Json.obj [("text", Json.str "Hi"), ("source", Json.str "en"),
        ("target", Json.str "es")]))
      (fun _ => UpstreamResult.response 200 "200 OK" (some (Json.obj [])))).response =
      ⟨200, some "application/json",
        Body.jsonVal (Json.obj [("translatedText", Json.str "")])⟩ :=
  getTranslate_absent_translation (some (Json.obj [("text", Json.str "Hi"),
      ("source", Json.str "en"), ("target", Json.str "es")]))
    (fun _ => UpstreamResult.response 200 "200 OK" (some (Json.obj [])))
    ⟨"Hi", "es", "en"⟩ "200 OK" [] rfl (by decide) (by decide) (by decide) rfl rfl

/-- C10: for a greeting body that is a JSON object, absent fields decode to
their zero values: a body with no `Age` key is rejected with 400 (as is one
decoding to `Age` 0), while a decoded body with no `Name` or no `Hobby` key
and positive `Age` succeeds with 200 and the empty string substituted into
the greeting for the missing field. -/
theorem getHello_absent_fields (fields : List (String × Json)) (r : HelloRequest) :
    (noKey "Age" fields = true → (getHello (some (Json.obj fields))).status = 400) ∧
    (decodeHello (Json.obj fields) = some r →
      (r.Age = 0 → (getHello (some (Json.obj fields))).status = 400) ∧
      (noKey "Name" fields = true → 0 < r.Age →
        getHello (some (Json.obj fields)) =
          ⟨200, none, Body.text ("Hello, ! You are " ++ toString r.Age ++
            " years old and enjoy " ++ r.Hobby ++ ".\n")⟩) ∧
      (noKey "Hobby" fields = true → 0 < r.Age →
        getHello (some (Json.obj fields)) =
          ⟨200, none, Body.text ("Hello, " ++ r.Name ++ "! You are " ++
            toString r.Age ++ " years old and enjoy .\n")⟩)) := by
  constructor
  · intro hkey
    cases hdec : decodeHello (Json.obj fields) with
    | none => simp [getHello, decodeHelloOpt, hdec, httpError]
    | some r0 =>
      have hage : r0.Age = 0 := (decodeHelloFields_absent fields _ _ hdec).2.1 hkey
      simp [getHello, decodeHelloOpt, hdec, hage, httpError]
  · intro hdec
    refine ⟨?_, ?_, ?_⟩
    · intro hage
      simp [getHello, decodeHelloOpt, hdec, hage, httpError]
    · intro hkey hpos
      have hname : r.Name = "" := (decodeHelloFields_absent fields _ _ hdec).1 hkey
      simp only [getHello, decodeHelloOpt, hdec]
      rw [if_neg (by omega), hname]
      rfl
    · intro hkey hpos
      have hhobby : r.Hobby = "" := (decodeHelloFields_absent fields _ _ hdec).2.2 hkey
      simp only [getHello, decodeHelloOpt, hdec]
      rw [if_neg (by omega), hhobby]
      simp only [String.append_empty, String.append_assoc]
      rfl

/-- Witness for C10: the body `{"Age":5}` succeeds with both empty strings
substituted into the greeting. -/
theorem getHello_absent_fields_witness :
    getHello (some (Json.obj [("Age", Json.num 5)])) =
      ⟨200, none, Body.text "Hello, ! You are 5 years old and enjoy .\n"⟩ :=
  ((getHello_absent_fields [("Age", Json.num 5)] ⟨"", 5, ""⟩).2 rfl).2.1 rfl (by decide)

end HttpServer
